import Mathlib

/-!
Verification of the diagnostic dispatch core
(`crates/ra_hir_expand/src/diagnostics.rs`).

The Rust source defines:
- trait `Diagnostic: Any + ...` with `message()`, `source()` and `as_any()`;
- `<dyn Diagnostic>::downcast_ref::<D>()` = `self.as_any().downcast_ref()`,
  a checked cast keyed on the runtime `TypeId` of the value `as_any` returns;
- `<dyn Diagnostic>::syntax_node(db)` resolving the stored source reference;
- `DiagnosticSink` holding `callbacks: Vec<Box<dyn FnMut(&dyn Diagnostic) -> Result<(),()>>>`
  and one `default_callback`, with `_push` trying each callback in order and
  stopping at the first `Ok(())`;
- `DiagnosticSinkBuilder` whose `on::<D, F>` appends a wrapper closure that
  downcasts to `D` and either calls the user handler (returning `Ok`) or
  returns `Err`.

Shallow embedding choices:
- Rust `TypeId`s are `Nat`.
- A `&dyn Diagnostic` handle is the structure `Diagnostic` below: the
  `TypeId` of the implementing concrete type, the values of `message()` and
  `source()`, a producer-specific payload, and `asAnyTyId`, the runtime type
  of the value returned by `as_any()` (the honest, standard implementation
  `fn as_any(&self) -> &dyn Any { self }` has `asAnyTyId = concreteTyId`).
- `FnMut` closures mutate captured state; we pass that state explicitly:
  a callback over state `σ` is `Diagnostic → σ → σ × Bool`, the `Bool`
  embedding `Result<(), ()>` (`true` = `Ok(())`, `false` = `Err(())`).
- The fallible `Option`-returning collaborator `db.parse_or_expand` is a
  function field; the source's `.unwrap()` panic is embedded as `none`
  propagating out of `syntax_node`.
-/

/-- Identifier of a parsed syntax tree node (models `ra_syntax::SyntaxNode`,
an external collaborator kept opaque). -/
abbrev AstNode := Nat

/-- Modelled from the spec: `ra_syntax::SyntaxNodePtr` (external crate, not
included in the sources) stores a position/range pointer into one file's
syntax tree; its `to_node` operation "projects the stored position pointer
onto that tree to obtain a concrete node". We keep the projection abstract
as a function field. -/
structure AstNodePtr where
  to_node : AstNode → AstNode

/-- `InFile<T>`: a value paired with the id of the file it lives in. -/
structure InFile (α : Type) where
  file_id : Nat
  value : α

/-- A `&dyn Diagnostic` capability handle.  `concreteTyId` is the `TypeId`
of the implementing type; `message`/`source` are the values the trait
methods return; `asAnyTyId` is the runtime type of the reference returned
by the implementer's `as_any` method; `payload` stands for the
producer-specific fields not visible through the uniform interface. -/
structure Diagnostic where
  concreteTyId : Nat
  asAnyTyId : Nat
  message : String
  source : InFile AstNodePtr
  payload : Nat

/-- `<dyn Diagnostic>::downcast_ref::<D>()` = `self.as_any().downcast_ref()`:
`Any::downcast_ref` succeeds exactly when the runtime type of the `Any`
value (here: of `as_any()`'s result) equals the requested `TypeId` `D`. -/
def Diagnostic.downcast_ref (d : Diagnostic) (D : Nat) : Option Diagnostic :=
  if d.asAnyTyId = D then some d else none

/-- Modelled from the spec: the `AstDatabase` collaborator
(`crate::db::AstDatabase`, not among the provided sources) exposes
`parse_or_expand`, which resolves "a file identifier to a parsed syntax
tree (fails fatally if the file is unknown/unparseable)"; `none` is the
unresolvable case, on which the source's `.unwrap()` aborts. -/
structure AstDatabase where
  parse_or_expand : Nat → Option AstNode

/-- `<dyn Diagnostic>::syntax_node(db)`:
`db.parse_or_expand(self.source().file_id).unwrap()` then
`self.source().value.to_node(&node)`.  The `.unwrap()` panic (fatal abort)
is embedded as propagating `none`. -/
def Diagnostic.ast_node (d : Diagnostic) (db : AstDatabase) : Option AstNode :=
  match db.parse_or_expand d.source.file_id with
  | none => none
  | some node => some (d.source.value.to_node node)

/-- A stored sink callback: `Box<dyn FnMut(&dyn Diagnostic) -> Result<(),()>>`.
The returned `Bool` embeds the `Result` (`true` = `Ok(())`); the returned
`σ` is the callback's captured state after the call. -/
abbrev Callback (σ : Type) := Diagnostic → σ → σ × Bool

/-- The fallback callback: `Box<dyn FnMut(&dyn Diagnostic)>`. -/
abbrev DefaultCallback (σ : Type) := Diagnostic → σ → σ

/-- `DiagnosticSink`: an ordered list of callbacks plus one fallback. -/
structure DiagnosticSink (σ : Type) where
  callbacks : List (Callback σ)
  default_callback : DefaultCallback σ

/-- The loop body of `DiagnosticSink::_push`: try each callback in order;
`Ok(())` returns immediately, `Err(())` moves on (keeping any state the
callback mutated); after exhausting the list, call the fallback. -/
def pushLoop {σ : Type} : List (Callback σ) → DefaultCallback σ → Diagnostic → σ → σ
  | [], fb, d, s => fb d s
  | cb :: rest, fb, d, s =>
    match cb d s with
    | (s2, true) => s2
    | (s2, false) => pushLoop rest fb d s2

/-- `DiagnosticSink::push` / `_push` (push coerces to `&dyn Diagnostic`
and calls `_push`; the handle is our `Diagnostic` structure already). -/
def DiagnosticSink.push {σ : Type} (sink : DiagnosticSink σ) (d : Diagnostic) (s : σ) : σ :=
  pushLoop sink.callbacks sink.default_callback d s

/-- `_push` with the `&mut self` borrow made explicit: the same loop,
threading the whole sink through, returning the sink as the borrow leaves
it together with the new captured state.  The loop only reads
`self.callbacks` and calls the stored closures, which touch captured
state only. -/
def pushLoopState {σ : Type} :
    List (Callback σ) → DiagnosticSink σ → Diagnostic → σ → DiagnosticSink σ × σ
  | [], sink, d, s => (sink, sink.default_callback d s)
  | cb :: rest, sink, d, s =>
    match cb d s with
    | (s2, true) => (sink, s2)
    | (s2, false) => pushLoopState rest sink d s2

/-- `_push` as a state transformer on (sink, captured state). -/
def DiagnosticSink.pushState {σ : Type} (sink : DiagnosticSink σ) (d : Diagnostic) (s : σ) :
    DiagnosticSink σ × σ :=
  pushLoopState sink.callbacks sink d s

/-- `DiagnosticSinkBuilder`: accumulates callbacks before `build`. -/
structure DiagnosticSinkBuilder (σ : Type) where
  callbacks : List (Callback σ)

/-- `DiagnosticSinkBuilder::new()`. -/
def DiagnosticSinkBuilder.new {σ : Type} : DiagnosticSinkBuilder σ :=
  ⟨[]⟩

/-- The closure `DiagnosticSinkBuilder::on::<D, F>` wraps around the user
handler `cb`: downcast to `D`; on `Some(d)` run `cb(d)` and return `Ok(())`,
on `None` return `Err(())`. -/
def onWrap {σ : Type} (D : Nat) (cb : Diagnostic → σ → σ) : Callback σ :=
  fun diag s =>
    match diag.downcast_ref D with
    | some d => (cb d s, true)
    | none => (s, false)

/-- `DiagnosticSinkBuilder::on::<D, F>(cb)`: appends the wrapper closure. -/
def DiagnosticSinkBuilder.on {σ : Type} (b : DiagnosticSinkBuilder σ) (D : Nat)
    (cb : Diagnostic → σ → σ) : DiagnosticSinkBuilder σ :=
  ⟨b.callbacks ++ [onWrap D cb]⟩

/-- `DiagnosticSinkBuilder::build(default_callback)`. -/
def DiagnosticSinkBuilder.build {σ : Type} (b : DiagnosticSinkBuilder σ)
    (default_callback : DefaultCallback σ) : DiagnosticSink σ :=
  ⟨b.callbacks, default_callback⟩

/-- One typed handler registration request: the expected variant `TypeId`
`D` and the user handler `F: FnMut(&D)`. -/
structure Registration (σ : Type) where
  expected : Nat
  handler : Diagnostic → σ → σ

/-- A sink built by chaining `on` once per registration, then `build`:
`DiagnosticSinkBuilder::new().on(...)....on(...).build(fb)`. -/
def buildFrom {σ : Type} (regs : List (Registration σ)) (fb : DefaultCallback σ) :
    DiagnosticSink σ :=
  (regs.foldl (fun b r => b.on r.expected r.handler) DiagnosticSinkBuilder.new).build fb

/-- The index of the first registration whose expected type equals the
diagnostic's runtime type (as exposed by `as_any`), if any. -/
def dispatchIdx {σ : Type} (d : Diagnostic) : List (Registration σ) → Option Nat
  | [] => none
  | r :: rest =>
    if d.asAnyTyId = r.expected then some 0 else (dispatchIdx d rest).map Nat.succ

/-- Reference dispatch semantics at the registration level: run the first
matching handler, or the fallback if none matches. -/
def handledBy {σ : Type} : List (Registration σ) → DefaultCallback σ → Diagnostic → σ → σ
  | [], fb, d, s => fb d s
  | r :: rest, fb, d, s =>
    if d.asAnyTyId = r.expected then r.handler d s else handledBy rest fb d s

/-- `regs` with every handler additionally appending its index (offset by
`k`) to an invocation log carried next to the state.  Used to observe which
handlers actually run. -/
def instrumentFrom {σ : Type} (k : Nat) :
    List (Registration σ) → List (Registration (σ × List (Option Nat)))
  | [] => []
  | r :: rest =>
    ⟨r.expected, fun d s => (r.handler d s.1, s.2 ++ [some k])⟩ :: instrumentFrom (k + 1) rest

/-- `instrumentFrom` starting at index 0. -/
def instrumentRegs {σ : Type} (regs : List (Registration σ)) :
    List (Registration (σ × List (Option Nat))) :=
  instrumentFrom 0 regs

/-- The fallback with `none` appended to the invocation log when it runs. -/
def instrumentFallback {σ : Type} (fb : DefaultCallback σ) :
    DefaultCallback (σ × List (Option Nat)) :=
  fun d s => (fb d s.1, s.2 ++ [none])

/-! ### Concrete sample values (used to exercise the theorems) -/

/-- A sample position pointer whose projection adds 100 to the tree id. -/
def samplePtr : AstNodePtr :=
  ⟨fun n => n + 100⟩

/-- A diagnostic of variant type 1 (think `UnresolvedImport`), honest `as_any`. -/
def diagImport : Diagnostic :=
  ⟨1, 1, "unresolved import", ⟨7, samplePtr⟩, 11⟩

/-- A diagnostic of variant type 2 (think `TypeMismatch`), honest `as_any`. -/
def diagMismatch : Diagnostic :=
  ⟨2, 2, "type mismatch", ⟨8, samplePtr⟩, 22⟩

/-- A second type-2 diagnostic with different message, source and payload. -/
def diagMismatch2 : Diagnostic :=
  ⟨2, 2, "other message", ⟨99, samplePtr⟩, 77⟩

/-- A diagnostic of unregistered variant type 3. -/
def diagUnknown : Diagnostic :=
  ⟨3, 3, "unknown variant", ⟨9, samplePtr⟩, 33⟩

/-- A diagnostic whose `as_any` returns a value of type 1 although its own
concrete type is 3 (a non-standard `as_any` implementation). -/
def diagDishonest : Diagnostic :=
  ⟨3, 1, "dishonest as_any", ⟨9, samplePtr⟩, 44⟩

/-- Handler registered for variant type 1: adds 1 to a counter state. -/
def regH1 : Registration Nat :=
  ⟨1, fun _ s => s + 1⟩

/-- Handler registered for variant type 2: adds 10. -/
def regH2 : Registration Nat :=
  ⟨2, fun _ s => s + 10⟩

/-- A second handler also registered for variant type 1: adds 1000. -/
def regH1b : Registration Nat :=
  ⟨1, fun _ s => s + 1000⟩

/-- Registration sequence: one type-1 handler then one type-2 handler. -/
def regsAB : List (Registration Nat) :=
  [regH1, regH2]

/-- Registration sequence with a duplicate: two type-1 handlers. -/
def regsDup : List (Registration Nat) :=
  [regH1, regH1b]

/-- Fallback: adds 100. -/
def fbAdd : DefaultCallback Nat :=
  fun _ s => s + 100

/-- A database resolving only file 7, to the tree with id 500. -/
def dbSample : AstDatabase :=
  ⟨fun fid => if fid = 7 then some 500 else none⟩

/-! ### Helper lemmas -/

theorem foldl_on_callbacks {σ : Type} (regs : List (Registration σ))
    (b : DiagnosticSinkBuilder σ) :
    (regs.foldl (fun b r => b.on r.expected r.handler) b).callbacks =
      b.callbacks ++ regs.map (fun r => onWrap r.expected r.handler) := by
  induction regs generalizing b with
  | nil => simp
  | cons r rest ih =>
    simp only [List.foldl_cons, List.map_cons]
    rw [ih]
    simp [DiagnosticSinkBuilder.on, List.append_assoc]

theorem buildFrom_callbacks {σ : Type} (regs : List (Registration σ)) (fb : DefaultCallback σ) :
    (buildFrom regs fb).callbacks = regs.map (fun r => onWrap r.expected r.handler) := by
  simp [buildFrom, DiagnosticSinkBuilder.build, foldl_on_callbacks, DiagnosticSinkBuilder.new]

theorem buildFrom_default {σ : Type} (regs : List (Registration σ)) (fb : DefaultCallback σ) :
    (buildFrom regs fb).default_callback = fb := by
  rfl

theorem pushLoop_wrapped {σ : Type} (regs : List (Registration σ)) (fb : DefaultCallback σ)
    (d : Diagnostic) (s : σ) :
    pushLoop (regs.map (fun r => onWrap r.expected r.handler)) fb d s = handledBy regs fb d s := by
  induction regs generalizing s with
  | nil => rfl
  | cons r rest ih =>
    simp only [List.map_cons, pushLoop, handledBy, onWrap, Diagnostic.downcast_ref]
    by_cases h : d.asAnyTyId = r.expected
    · simp [h]
    · simp [h, ih]

theorem push_eq_handledBy {σ : Type} (regs : List (Registration σ)) (fb : DefaultCallback σ)
    (d : Diagnostic) (s : σ) :
    (buildFrom regs fb).push d s = handledBy regs fb d s := by
  rw [DiagnosticSink.push, buildFrom_callbacks, buildFrom_default, pushLoop_wrapped]

theorem handledBy_of_dispatchIdx_none {σ : Type} {regs : List (Registration σ)}
    {d : Diagnostic} (h : dispatchIdx d regs = none) (fb : DefaultCallback σ) (s : σ) :
    handledBy regs fb d s = fb d s := by
  induction regs with
  | nil => rfl
  | cons r rest ih =>
    simp only [dispatchIdx] at h
    by_cases hm : d.asAnyTyId = r.expected
    · simp [hm] at h
    · simp only [hm, if_false] at h
      cases hrest : dispatchIdx d rest with
      | none => simp [handledBy, hm, ih hrest]
      | some j => rw [hrest] at h; simp at h

theorem handledBy_of_dispatchIdx_some {σ : Type} {regs : List (Registration σ)}
    {d : Diagnostic} {i : Nat} (h : dispatchIdx d regs = some i) (fb : DefaultCallback σ)
    (s : σ) :
    ∃ r, regs[i]? = some r ∧ d.asAnyTyId = r.expected ∧ handledBy regs fb d s = r.handler d s := by
  induction regs generalizing i with
  | nil => simp [dispatchIdx] at h
  | cons r rest ih =>
    simp only [dispatchIdx] at h
    by_cases hm : d.asAnyTyId = r.expected
    · simp only [hm, if_true] at h
      obtain rfl : i = 0 := by simpa using h.symm
      exact ⟨r, by simp, hm, by simp [handledBy, hm]⟩
    · simp only [hm, if_false] at h
      cases hrest : dispatchIdx d rest with
      | none => rw [hrest] at h; simp at h
      | some j =>
        rw [hrest] at h
        have h2 : j.succ = i := by simpa using h
        subst h2
        obtain ⟨r2, hget, hty, hrun⟩ := ih hrest
        exact ⟨r2, by simpa using hget, hty, by simp [handledBy, hm, hrun]⟩

theorem dispatchIdx_some_of_match {σ : Type} {regs : List (Registration σ)} {d : Diagnostic}
    {i : Nat} {r : Registration σ} (hget : regs[i]? = some r)
    (hty : d.asAnyTyId = r.expected)
    (hfirst : ∀ j rj, j < i → regs[j]? = some rj → d.asAnyTyId ≠ rj.expected) :
    dispatchIdx d regs = some i := by
  induction regs generalizing i with
  | nil => simp at hget
  | cons r0 rest ih =>
    cases i with
    | zero =>
      simp only [List.getElem?_cons_zero, Option.some.injEq] at hget
      subst hget
      simp [dispatchIdx, hty]
    | succ i =>
      have h0 : d.asAnyTyId ≠ r0.expected := hfirst 0 r0 (Nat.succ_pos i) (by simp)
      simp only [List.getElem?_cons_succ] at hget
      have := ih hget (fun j rj hj hg => hfirst (j + 1) rj (Nat.succ_lt_succ hj) (by simpa using hg))
      simp [dispatchIdx, h0, this]

theorem dispatchIdx_instrumentFrom {σ : Type} (k : Nat) (regs : List (Registration σ))
    (d : Diagnostic) :
    dispatchIdx d (instrumentFrom k regs) = dispatchIdx d regs := by
  induction regs generalizing k with
  | nil => rfl
  | cons r rest ih =>
    simp only [instrumentFrom, dispatchIdx]
    by_cases hm : d.asAnyTyId = r.expected
    · simp [hm]
    · simp [hm, ih]

theorem handledBy_instrumentFrom {σ : Type} (k : Nat) (regs : List (Registration σ))
    (fb : DefaultCallback σ) (d : Diagnostic) (s : σ) (log : List (Option Nat)) :
    handledBy (instrumentFrom k regs) (instrumentFallback fb) d (s, log) =
      (handledBy regs fb d s, log ++ [(dispatchIdx d regs).map (fun i => k + i)]) := by
  induction regs generalizing k with
  | nil => rfl
  | cons r rest ih =>
    simp only [instrumentFrom, handledBy, dispatchIdx]
    by_cases hm : d.asAnyTyId = r.expected
    · simp [hm]
    · simp only [hm, if_false]
      rw [ih]
      cases hrest : dispatchIdx d rest with
      | none => simp
      | some j =>
        have h2 : k + 1 + j = k + Nat.succ j := by omega
        simp [h2]

theorem push_instrumented {σ : Type} (regs : List (Registration σ)) (fb : DefaultCallback σ)
    (d : Diagnostic) (s : σ) (log : List (Option Nat)) :
    (buildFrom (instrumentRegs regs) (instrumentFallback fb)).push d (s, log) =
      ((buildFrom regs fb).push d s, log ++ [dispatchIdx d regs]) := by
  rw [push_eq_handledBy, push_eq_handledBy, instrumentRegs, handledBy_instrumentFrom]
  cases h : dispatchIdx d regs with
  | none => simp
  | some i => simp

theorem dispatchIdx_none_of_no_match {σ : Type} {regs : List (Registration σ)}
    {d : Diagnostic} (h : ∀ r, r ∈ regs → r.expected ≠ d.asAnyTyId) :
    dispatchIdx d regs = none := by
  induction regs with
  | nil => rfl
  | cons r rest ih =>
    have h0 : ¬ d.asAnyTyId = r.expected := fun hc => h r (by simp) hc.symm
    have hrest : dispatchIdx d rest = none := ih (fun r2 hr2 => h r2 (by simp [hr2]))
    simp [dispatchIdx, h0, hrest]

theorem dispatchIdx_le_of_match {σ : Type} {regs : List (Registration σ)} {d : Diagnostic}
    {i : Nat} {ri : Registration σ} (hget : regs[i]? = some ri)
    (hty : d.asAnyTyId = ri.expected) :
    ∃ m, dispatchIdx d regs = some m ∧ m ≤ i := by
  induction regs generalizing i with
  | nil => simp at hget
  | cons r rest ih =>
    by_cases hm : d.asAnyTyId = r.expected
    · exact ⟨0, by simp [dispatchIdx, hm], Nat.zero_le i⟩
    · cases i with
      | zero =>
        simp only [List.getElem?_cons_zero, Option.some.injEq] at hget
        subst hget
        exact absurd hty hm
      | succ i =>
        simp only [List.getElem?_cons_succ] at hget
        obtain ⟨m, hmidx, hle⟩ := ih hget
        exact ⟨m + 1, by simp [dispatchIdx, hm, hmidx], Nat.succ_le_succ hle⟩

theorem dispatchIdx_congr {σ : Type} (regs : List (Registration σ)) {d1 d2 : Diagnostic}
    (h : d1.asAnyTyId = d2.asAnyTyId) :
    dispatchIdx d1 regs = dispatchIdx d2 regs := by
  induction regs with
  | nil => rfl
  | cons r rest ih => simp [dispatchIdx, h, ih]

theorem pushLoopState_frame {σ : Type} (cbs : List (Callback σ)) (sink : DiagnosticSink σ)
    (d : Diagnostic) (s : σ) :
    (pushLoopState cbs sink d s).1 = sink ∧
      (pushLoopState cbs sink d s).2 = pushLoop cbs sink.default_callback d s := by
  induction cbs generalizing s with
  | nil => exact ⟨rfl, rfl⟩
  | cons cb rest ih =>
    simp only [pushLoopState, pushLoop]
    cases hcb : cb d s with
    | mk s2 b =>
      cases b
      · simpa using ih s2
      · exact ⟨rfl, rfl⟩

/-! ### Claim theorems -/

/-- C1: For every sink built from any sequence of registered handlers plus a
fallback, and every diagnostic, one call to `push` terminates (it is a total
function) and invokes exactly one callback out of the handlers and the
fallback: the instrumented run, in which every handler and the fallback
additionally appends a marker to an invocation log, produces the same state
as the plain run and a log with exactly one entry. -/
theorem push_invokes_exactly_one_callback :
    ∀ (σ : Type) (regs : List (Registration σ)) (fb : DefaultCallback σ)
      (d : Diagnostic) (s : σ),
      ∃ c : Option Nat,
        (buildFrom (instrumentRegs regs) (instrumentFallback fb)).push d (s, []) =
          ((buildFrom regs fb).push d s, [c]) := by
  intro σ regs fb d s
  exact ⟨dispatchIdx d regs, by simpa using push_instrumented regs fb d s []⟩

/-- C2: if the diagnostic's runtime type equals the expected type of entry
`i` and no earlier entry matches, then entry `i`'s user callback runs on the
typed reference and dispatch stops: the result is exactly that handler's
effect, and the invocation log records entry `i` alone — no later entry and
not the fallback. -/
theorem push_first_matching_handler_runs
    (σ : Type) (regs : List (Registration σ)) (fb : DefaultCallback σ) (d : Diagnostic)
    (s : σ) (i : Nat) (r : Registration σ)
    (hget : regs[i]? = some r)
    (hty : d.asAnyTyId = r.expected)
    (hfirst : ∀ j rj, j < i → regs[j]? = some rj → d.asAnyTyId ≠ rj.expected) :
    (buildFrom regs fb).push d s = r.handler d s ∧
    (buildFrom (instrumentRegs regs) (instrumentFallback fb)).push d (s, []) =
      (r.handler d s, [some i]) := by
  have hidx := dispatchIdx_some_of_match hget hty hfirst
  obtain ⟨r2, hget2, _, hrun⟩ := handledBy_of_dispatchIdx_some hidx fb s
  rw [hget] at hget2
  have hrr : r = r2 := Option.some.inj hget2
  rw [← hrr] at hrun
  have hp : (buildFrom regs fb).push d s = r.handler d s := by
    rw [push_eq_handledBy, hrun]
  refine ⟨hp, ?_⟩
  rw [push_instrumented, hidx, hp]
  simp

/-- C3: type recovery is exact-type — a handle whose runtime type is `A` is
never recovered as a different type `B`; a successful `downcast_ref`
implies the requested type is exactly the handle's runtime type (and the
recovered reference is the original value). -/
theorem downcast_ref_exact_type (d : Diagnostic) (A B : Nat)
    (hA : d.asAnyTyId = A) (hAB : A ≠ B) :
    d.downcast_ref B = none ∧
    (∀ C dd, d.downcast_ref C = some dd → C = A ∧ dd = d) := by
  constructor
  · simp only [Diagnostic.downcast_ref, hA]
    simp [hAB]
  · intro C dd h
    simp only [Diagnostic.downcast_ref] at h
    by_cases hC : d.asAnyTyId = C
    · simp only [hC, if_true, Option.some.injEq] at h
      exact ⟨hC.symm.trans hA, h.symm⟩
    · simp [hC] at h

/-- C4: if no registered entry's expected type equals the diagnostic's
concrete type (with the standard `as_any` returning `self`), the fallback
runs, exactly once, receiving the uniform capability handle `d` itself —
and any typed handler's view of the value (the `downcast_ref` result) has
the same `message` and `source` as that handle. -/
theorem fallback_runs_when_no_match
    (σ : Type) (regs : List (Registration σ)) (fb : DefaultCallback σ) (d : Diagnostic)
    (s : σ)
    (hhonest : d.asAnyTyId = d.concreteTyId)
    (hnone : ∀ r, r ∈ regs → r.expected ≠ d.concreteTyId) :
    (buildFrom regs fb).push d s = fb d s ∧
    (buildFrom (instrumentRegs regs) (instrumentFallback fb)).push d (s, []) =
      (fb d s, [none]) ∧
    (∀ D dd, d.downcast_ref D = some dd → dd.message = d.message ∧ dd.source = d.source) := by
  have hidx : dispatchIdx d regs = none :=
    dispatchIdx_none_of_no_match (fun r hr => hhonest ▸ hnone r hr)
  have hp : (buildFrom regs fb).push d s = fb d s := by
    rw [push_eq_handledBy, handledBy_of_dispatchIdx_none hidx]
  refine ⟨hp, ?_, ?_⟩
  · rw [push_instrumented, hidx, hp]
    simp
  · intro D dd h
    simp only [Diagnostic.downcast_ref] at h
    by_cases hC : d.asAnyTyId = D
    · simp only [hC, if_true, Option.some.injEq] at h
      rw [← h]
      exact ⟨rfl, rfl⟩
    · simp [hC] at h

/-- C5: registering two handlers for the same variant type is legal — `on`
always succeeds, appending the new entry — and for a diagnostic of that
type the invoked entry has an index at most that of the earlier duplicate,
so the later duplicate (at the strictly larger index `j`) never runs. -/
theorem duplicate_registration_legal_earlier_wins :
    ∀ (σ : Type) (b : DiagnosticSinkBuilder σ) (D : Nat) (cb : Diagnostic → σ → σ),
      (b.on D cb).callbacks = b.callbacks ++ [onWrap D cb] ∧
      ∀ (regs : List (Registration σ)) (fb : DefaultCallback σ) (d : Diagnostic) (s : σ)
        (i j : Nat) (ri rj : Registration σ),
        i < j → regs[i]? = some ri → regs[j]? = some rj → ri.expected = rj.expected →
        d.asAnyTyId = ri.expected →
        ∃ m rm, m ≤ i ∧ regs[m]? = some rm ∧
          (buildFrom regs fb).push d s = rm.handler d s ∧
          (buildFrom (instrumentRegs regs) (instrumentFallback fb)).push d (s, []) =
            (rm.handler d s, [some m]) := by
  intro σ b D cb
  refine ⟨rfl, ?_⟩
  intro regs fb d s i j ri rj _ hgeti _ _ htyi
  obtain ⟨m, hmidx, hle⟩ := dispatchIdx_le_of_match hgeti htyi
  obtain ⟨rm, hgetm, _, hrun⟩ := handledBy_of_dispatchIdx_some hmidx fb s
  have hp : (buildFrom regs fb).push d s = rm.handler d s := by
    rw [push_eq_handledBy, hrun]
  refine ⟨m, rm, hle, hgetm, hp, ?_⟩
  rw [push_instrumented, hmidx, hp]
  simp

/-- C6: a type mismatch during handler recovery is encoded as the binary
failure branch of the wrapper callback (state unchanged, flag `false`),
consumed inside the dispatch loop; `push` itself returns a plain state —
every pushed diagnostic is fully handled by the first matching typed
handler or the fallback, with no error escaping. -/
theorem no_error_crosses_push_boundary
    (σ : Type) (regs : List (Registration σ)) (fb : DefaultCallback σ) (d : Diagnostic)
    (s : σ) (D : Nat) (cb : Diagnostic → σ → σ) :
    (d.asAnyTyId ≠ D → onWrap D cb d s = (s, false)) ∧
    (buildFrom regs fb).push d s = handledBy regs fb d s := by
  constructor
  · intro h
    simp [onWrap, Diagnostic.downcast_ref, h]
  · exact push_eq_handledBy regs fb d s

/-- C7: the location-resolution convenience operation fails fatally (the
embedded `none`, standing for the source's `.unwrap()` abort) exactly when
the stored file identifier cannot be resolved to a parsed tree; whenever it
resolves, the operation returns the node obtained by projecting the stored
position pointer onto that tree. -/
theorem ast_node_fatal_iff_unresolved (db : AstDatabase) (d : Diagnostic) :
    (d.ast_node db = none ↔ db.parse_or_expand d.source.file_id = none) ∧
    (∀ node, db.parse_or_expand d.source.file_id = some node →
      d.ast_node db = some (d.source.value.to_node node)) := by
  constructor
  · cases h : db.parse_or_expand d.source.file_id <;> simp [Diagnostic.ast_node, h]
  · intro node h
    simp [Diagnostic.ast_node, h]

/-- C8: `downcast_ref` succeeds exactly when the value returned by `as_any`
has the requested runtime type, and dispatch selection is keyed on that
type alone: any two diagnostics whose `as_any` results have the same
runtime type are routed to the same entry index, whatever their own
concrete types are. -/
theorem routing_keyed_on_as_any (d : Diagnostic) (D : Nat) :
    ((d.downcast_ref D).isSome ↔ d.asAnyTyId = D) ∧
    (∀ (σ : Type) (regs : List (Registration σ)) (d2 : Diagnostic),
      d2.asAnyTyId = d.asAnyTyId → dispatchIdx d2 regs = dispatchIdx d regs) := by
  constructor
  · simp only [Diagnostic.downcast_ref]
    by_cases h : d.asAnyTyId = D <;> simp [h]
  · intro σ regs d2 h
    exact dispatchIdx_congr regs h

/-- C9: dispatch selection is deterministic and depends only on the
diagnostic's runtime type (as exposed via `as_any`) and the registration
order: pushing any two diagnostics of the same runtime type into the same
sink, from any captured states, logs the same invoked entry (or both the
fallback), whatever the diagnostics' messages, sources or payloads. -/
theorem dispatch_depends_only_on_type_and_order
    (σ : Type) (regs : List (Registration σ)) (fb : DefaultCallback σ)
    (d1 d2 : Diagnostic) (s1 s2 : σ)
    (h : d1.asAnyTyId = d2.asAnyTyId) :
    ((buildFrom (instrumentRegs regs) (instrumentFallback fb)).push d1 (s1, [])).2 =
      ((buildFrom (instrumentRegs regs) (instrumentFallback fb)).push d2 (s2, [])).2 := by
  rw [push_instrumented, push_instrumented]
  simpa using congrArg (fun o => [o]) (dispatchIdx_congr regs h)

/-- C10: `push` never alters the sink's dispatch structure — the `_push`
loop with the `&mut self` borrow made explicit returns the sink exactly as
it was (same callback list, same fallback), and its state effect is the one
`push` computes on the callback-captured state alone. -/
theorem push_preserves_sink_structure :
    ∀ (σ : Type) (sink : DiagnosticSink σ) (d : Diagnostic) (s : σ),
      (sink.pushState d s).1 = sink ∧ (sink.pushState d s).2 = sink.push d s := by
  intro σ sink d s
  exact pushLoopState_frame sink.callbacks sink d s

/-! ### Witnesses -/

/-- Witness for C2: pushing a type-2 diagnostic into the [type-1, type-2]
sink runs the second handler alone (counter 0 becomes 10, log `[some 1]`). -/
theorem push_first_matching_handler_runs_witness :
    regsAB[1]? = some regH2 ∧ diagMismatch.asAnyTyId = regH2.expected ∧
    (buildFrom regsAB fbAdd).push diagMismatch 0 = 10 ∧
    (buildFrom (instrumentRegs regsAB) (instrumentFallback fbAdd)).push diagMismatch (0, []) =
      (10, [some 1]) := by
  have h := push_first_matching_handler_runs Nat regsAB fbAdd diagMismatch 0 1 regH2 rfl rfl
    (by
      intro j rj hj hg
      have hj0 : j = 0 := by omega
      subst hj0
      simp only [regsAB, List.getElem?_cons_zero, Option.some.injEq] at hg
      subst hg
      decide)
  exact ⟨rfl, rfl, h.1, h.2⟩

/-- Witness for C3: the type-1 diagnostic is not recovered as type 2. -/
theorem downcast_ref_exact_type_witness :
    diagImport.asAnyTyId = 1 ∧ (1 : Nat) ≠ 2 ∧ diagImport.downcast_ref 2 = none :=
  ⟨rfl, by decide, (downcast_ref_exact_type diagImport 1 2 rfl (by decide)).1⟩

/-- Witness for C4: the unregistered type-3 diagnostic reaches the fallback
(counter 0 becomes 100, log `[none]`). -/
theorem fallback_runs_when_no_match_witness :
    diagUnknown.asAnyTyId = diagUnknown.concreteTyId ∧
    (buildFrom regsAB fbAdd).push diagUnknown 0 = 100 ∧
    (buildFrom (instrumentRegs regsAB) (instrumentFallback fbAdd)).push diagUnknown (0, []) =
      (100, [Option.none]) := by
  have h := fallback_runs_when_no_match Nat regsAB fbAdd diagUnknown 0 rfl
    (by
      intro r hr
      simp only [regsAB, List.mem_cons, List.not_mem_nil, or_false] at hr
      rcases hr with rfl | rfl <;> decide)
  exact ⟨rfl, h.1, h.2.1⟩

/-- Witness for C5: with two type-1 handlers registered, pushing a type-1
diagnostic invokes an entry of index at most 0: the earlier one; the later
duplicate at index 1 never runs. -/
theorem duplicate_registration_witness :
    ∃ m rm, m ≤ 0 ∧ regsDup[m]? = some rm ∧
      (buildFrom regsDup fbAdd).push diagImport 0 = rm.handler diagImport 0 ∧
      (buildFrom (instrumentRegs regsDup) (instrumentFallback fbAdd)).push diagImport (0, []) =
        (rm.handler diagImport 0, [some m]) :=
  (duplicate_registration_legal_earlier_wins Nat DiagnosticSinkBuilder.new 1 (fun _ s => s)).2
    regsDup fbAdd diagImport 0 0 1 regH1 regH1b (by decide) rfl rfl rfl rfl

/-- Witness for C6: a mismatched wrapper call returns the untouched state
with the failure flag, and `push` equals the fully-handled semantics. -/
theorem no_error_crosses_push_boundary_witness :
    diagImport.asAnyTyId ≠ 2 ∧ onWrap 2 regH2.handler diagImport 0 = (0, false) ∧
    (buildFrom regsAB fbAdd).push diagImport 0 = handledBy regsAB fbAdd diagImport 0 := by
  have h := no_error_crosses_push_boundary Nat regsAB fbAdd diagImport 0 2 regH2.handler
  exact ⟨by decide, h.1 (by decide), h.2⟩

/-- Witness for C7: file 7 resolves, so the operation returns the projected
node 600; file 9 does not resolve, so the operation fails fatally. -/
theorem ast_node_fatal_iff_unresolved_witness :
    dbSample.parse_or_expand diagImport.source.file_id = some 500 ∧
    diagImport.ast_node dbSample = some 600 ∧
    dbSample.parse_or_expand diagUnknown.source.file_id = none ∧
    diagUnknown.ast_node dbSample = none := by
  have h1 := (ast_node_fatal_iff_unresolved dbSample diagImport).2 500 rfl
  have h2 := (ast_node_fatal_iff_unresolved dbSample diagUnknown).1.mpr rfl
  exact ⟨rfl, h1, rfl, h2⟩

/-- Witness for C8: the diagnostic with concrete type 3 but `as_any`
returning a value of type 1 is recovered as type 1 and routed like the
genuine type-1 diagnostic, to entry 0 instead of the fallback. -/
theorem routing_keyed_on_as_any_witness :
    diagDishonest.concreteTyId = 3 ∧ diagDishonest.asAnyTyId = 1 ∧
    (diagDishonest.downcast_ref 1).isSome ∧
    dispatchIdx diagDishonest regsAB = dispatchIdx diagImport regsAB ∧
    dispatchIdx diagDishonest regsAB = some 0 := by
  refine ⟨rfl, rfl, ?_, ?_, ?_⟩
  · exact ((routing_keyed_on_as_any diagDishonest 1).1).mpr rfl
  · exact (routing_keyed_on_as_any diagImport 1).2 Nat regsAB diagDishonest rfl
  · rfl

/-- Witness for C9: two type-2 diagnostics differing in message, source,
payload and starting state produce the same invocation log. -/
theorem dispatch_depends_only_on_type_and_order_witness :
    diagMismatch.asAnyTyId = diagMismatch2.asAnyTyId ∧
    ((buildFrom (instrumentRegs regsAB) (instrumentFallback fbAdd)).push diagMismatch (0, [])).2 =
      ((buildFrom (instrumentRegs regsAB) (instrumentFallback fbAdd)).push diagMismatch2 (5, [])).2 :=
  ⟨rfl, dispatch_depends_only_on_type_and_order Nat regsAB fbAdd diagMismatch diagMismatch2 0 5 rfl⟩
